import Mathlib

/-!
Shallow embedding of the FMStats analysis engine
(`src/utils/musicAnalyzer.ts`, plus the second analyzer variant of the
repository that parses through Papa Parse), together with theorems that
settle the frozen claims about it.

Strings are modelled with Lean `String` but all character-level operations
(`trim`, `split`) are re-implemented structurally over `String.toList`,
mirroring the JavaScript semantics of `String.prototype.trim` /
`String.prototype.split` on a single-character separator, so that every
definition evaluates inside the kernel. JavaScript numbers that hold
integer counts and second totals are modelled as `Int`/`Nat`; the two
derived statistics that divide (`totalListeningTime`, `averageTrackDuration`)
are modelled in `ℚ`.
-/

/-- JavaScript's `trim`, at the character-list level: drop whitespace from
the front, then from the back. -/
def trimList (cs : List Char) : List Char :=
  ((cs.dropWhile Char.isWhitespace).reverse.dropWhile Char.isWhitespace).reverse

/-- `s.trim()` of JavaScript. -/
def jsTrim (s : String) : String :=
  String.mk (trimList s.toList)

/-- Splitting on a single separator character, accumulator at the front.
`splitOnCharAux sep rest acc` continues a split whose current (reversed)
cell is `acc`. -/
def splitOnCharAux (sep : Char) : List Char → List Char → List (List Char)
  | [], acc => [acc.reverse]
  | c :: rest, acc =>
    if c = sep then acc.reverse :: splitOnCharAux sep rest []
    else splitOnCharAux sep rest (c :: acc)

/-- JavaScript's `s.split(sep)` for a one-character separator: `""` splits
to `[""]`, separators at the ends produce empty cells. -/
def jsSplit (sep : Char) (s : String) : List String :=
  (splitOnCharAux sep s.toList []).map String.mk

/-- Decimal value of a digit run. -/
def digitsToNat (ds : List Char) : Nat :=
  ds.foldl (fun n c => n * 10 + (c.toNat - '0'.toNat)) 0

/-- JavaScript's `parseInt(s)` (radix 10): skip leading whitespace, read an
optional sign and then the longest run of leading decimal digits, ignoring
any trailing garbage; `none` models `NaN`. (The `0x` radix-16
autodetection of `parseInt` is not modelled; no input of this development
uses it.) -/
def jsParseInt (s : String) : Option Int :=
  let cs := s.toList.dropWhile Char.isWhitespace
  let signed : Int × List Char :=
    match cs with
    | '-' :: r => (-1, r)
    | '+' :: r => (1, r)
    | r => (1, r)
  let ds := signed.2.takeWhile Char.isDigit
  if ds.isEmpty then none else some (signed.1 * (digitsToNat ds : Int))

/-- Whether a string is a canonical array-index key of a JavaScript object:
the decimal representation of some `n < 2^32 - 1` with no sign and no
leading zeros. Such keys are enumerated first, in ascending numeric
order, by `Object.entries`. -/
def isArrayIndex (s : String) : Bool :=
  match s.toList with
  | [] => false
  | ['0'] => true
  | c :: cs =>
    (c :: cs).all Char.isDigit && c != '0' &&
      decide (digitsToNat (c :: cs) < 4294967295)

/-- Numeric value of an array-index key (callers only apply it to keys
that satisfy `isArrayIndex`). -/
def arrayIndexVal (s : String) : Nat :=
  digitsToNat s.toList

/-- A JavaScript object used as a string-keyed map, held in property
insertion order. -/
abbrev JsObj (α : Type) := List (String × α)

/-- Property read `o[k]`; `none` is `undefined`. -/
def jsGet {α : Type} : JsObj α → String → Option α
  | [], _ => none
  | (k, v) :: t, key => if k == key then some v else jsGet t key

/-- Property write `o[k] = v`: update in place when the key exists,
otherwise append (insertion order). -/
def jsSet {α : Type} : JsObj α → String → α → JsObj α
  | [], key, v => [(key, v)]
  | (k, w) :: t, key, v =>
    if k == key then (k, v) :: t else (k, w) :: jsSet t key v

/-- Insert into a list of properties sorted by ascending numeric key. -/
def insertAscIdx {α : Type} (p : String × α) : List (String × α) → List (String × α)
  | [] => [p]
  | q :: qs =>
    if arrayIndexVal p.1 < arrayIndexVal q.1 then p :: q :: qs
    else q :: insertAscIdx p qs

/-- Sort properties by ascending numeric key (used for array-index keys). -/
def sortAscIdx {α : Type} (l : List (String × α)) : List (String × α) :=
  l.foldr insertAscIdx []

/-- `Object.entries o`: canonical array-index keys first in ascending
numeric order, then the remaining string keys in insertion order. -/
def jsEntries {α : Type} (o : JsObj α) : List (String × α) :=
  sortAscIdx (o.filter (fun p => isArrayIndex p.1)) ++
    o.filter (fun p => !isArrayIndex p.1)

/-- One step of `countOccurrences`: `acc[key] = (acc[key] || 0) + 1`. -/
def jsInc (acc : JsObj Nat) (s : String) : JsObj Nat :=
  jsSet acc s ((jsGet acc s).getD 0 + 1)

/-- `countOccurrences` of `MusicAnalyzer`: the increment folded over the
items, starting from `{}`. -/
def countOccurrences (items : List String) : JsObj Nat :=
  items.foldl jsInc []

/-- The `Track` shape of `src/types/music.ts`: identity fields, a
pre-aggregated play count, and optional enrichment fields (`none` models
an absent / `undefined` property). -/
structure Track where
  artist : String
  album : String
  track : String
  count : Int
  duration : Option String := none
  genre : Option String := none
  utc_time : Option String := none
  feat : Option String := none
  prod : Option String := none
  label : Option String := none
deriving DecidableEq

/-- The `TopItem` shape: a ranked group. -/
structure TopItem where
  name : String
  count : Nat
  artist : Option String := none
  album : Option String := none
  duration : Option String := none
  genre : Option String := none
deriving DecidableEq

/-- One step of the stable descending-by-count sort: a new element is
placed after every earlier element whose count is at least as large,
before the first strictly smaller one. -/
def insertDesc (x : TopItem) : List TopItem → List TopItem
  | [] => [x]
  | y :: ys => if y.count < x.count then x :: y :: ys else y :: insertDesc x ys

/-- `Array.prototype.sort((a, b) => b.count - a.count)`: a stable sort by
descending count (sort stability is mandated by ES2019). Modelled as a
stable insertion sort, which produces the same list: sorted by descending
count with ties kept in input order. -/
def sortDesc (l : List TopItem) : List TopItem :=
  l.foldl (fun acc x => insertDesc x acc) []

/-- `getTopItems` of `MusicAnalyzer` at the default cap `n = Infinity`
(the only way `analyze` calls it, where `slice(0, Infinity)` is the
identity): entries of the counts object, empty and whitespace-only names
filtered out, mapped to `TopItem`s and stably sorted by descending count. -/
def getTopItems (o : JsObj Nat) : List TopItem :=
  sortDesc (((jsEntries o).filter
      (fun p => p.1 != "" && jsTrim p.1 != "")).map
    (fun p => { name := p.1, count := p.2 }))

/-- The per-group record of `getTopTracks`'s `trackCounts` object. -/
structure TrackGroup where
  count : Nat
  artist : String
  album : String
  duration : Option String
  genre : Option String
deriving DecidableEq

/-- `createTrackKey`: the `artist|album|track` join. -/
def createTrackKey (artist album track : String) : String :=
  artist ++ "|" ++ album ++ "|" ++ track

/-- The `trackCounts` object of `getTopTracks`: tracks with empty names
filtered out, grouped by the `artist|album|track` key; a group is created
(count 0, metadata captured from its first member) and its count bumped
per member. -/
def trackCountsObj (ts : List Track) : JsObj TrackGroup :=
  (ts.filter (fun t => jsTrim t.track != "")).foldl
    (fun acc t =>
      let key := t.artist ++ "|" ++ t.album ++ "|" ++ t.track
      match jsGet acc key with
      | none => jsSet acc key ⟨1, t.artist, t.album, t.duration, t.genre⟩
      | some g => jsSet acc key { g with count := g.count + 1 })
    []

/-- `getTopTracks` at the default cap: the grouped entries, named by the
third `|`-separated segment of the group key, stably sorted by descending
count. -/
def getTopTracks (ts : List Track) : List TopItem :=
  sortDesc ((jsEntries (trackCountsObj ts)).map
    (fun p =>
      { name := ((jsSplit '|' p.1).getD 2 ""),
        count := p.2.count,
        artist := some p.2.artist,
        album := some p.2.album,
        duration := p.2.duration,
        genre := p.2.genre }))

/-- `analyze`'s duration filter: `track.duration !== ''`. An absent
(`undefined`) duration passes this filter; only the empty string is
excluded. -/
def tracksWithDuration (ts : List Track) : List Track :=
  ts.filter (fun t => t.duration != some "")

/-- The summand `parseInt(track.duration) || 0`: an absent duration gives
`parseInt(undefined) = NaN`, an unparseable one gives `NaN`, both fall
back to `0`. -/
def jsDurVal (t : Track) : Int :=
  match t.duration with
  | none => 0
  | some s => (jsParseInt s).getD 0

/-- `totalDuration` of `analyze`: the reduce over the duration-filtered
tracks, each record contributing its own parsed duration once. -/
def totalDurationSecs (ts : List Track) : Int :=
  (tracksWithDuration ts).foldl (fun s t => s + jsDurVal t) 0

/-- `averageDuration` of `analyze`: total over the number of
duration-filtered records, `0` on an empty denominator. -/
def averageDurationSecs (ts : List Track) : ℚ :=
  if (tracksWithDuration ts).length > 0 then
    (totalDurationSecs ts : ℚ) / ((tracksWithDuration ts).length : ℚ)
  else 0

/-- The artist projection `analyze` counts over: artists of the records
whose artist is not whitespace-only, in record order. -/
def artistList (ts : List Track) : List String :=
  (ts.filter (fun t => jsTrim t.artist != "")).map (fun t => t.artist)

/-- The album projection `analyze` counts over. -/
def albumList (ts : List Track) : List String :=
  (ts.filter (fun t => jsTrim t.album != "")).map (fun t => t.album)

/-- `artistCounts` of `analyze`. -/
def artistCounts (ts : List Track) : JsObj Nat :=
  countOccurrences (artistList ts)

/-- `albumCounts` of `analyze`. -/
def albumCounts (ts : List Track) : JsObj Nat :=
  countOccurrences (albumList ts)

/-- The `Statistics` fields the claims are about. (The
`listeningPatterns` histograms depend on `Date` parsing and locale
weekday/month names and are outside this embedding; no claim mentions
them.) -/
structure Statistics where
  totalListeningTime : ℚ
  averageTrackDuration : ℚ
  topArtists : List TopItem
  topAlbums : List TopItem
  topTracks : List TopItem
deriving DecidableEq

/-- `analyze` of `MusicAnalyzer`, as a pure function of the held track
sequence. -/
def analyze (ts : List Track) : Statistics :=
  { totalListeningTime := (totalDurationSecs ts : ℚ) / 3600,
    averageTrackDuration := averageDurationSecs ts / 60,
    topArtists := getTopItems (artistCounts ts),
    topAlbums := getTopItems (albumCounts ts),
    topTracks := getTopTracks ts }

/-- A (possibly partial) `TrackMetadata` object: each field is a JavaScript
property that may be absent. Doubles as the `Partial<TrackMetadata>`
update argument of `updateTrackMetadata`. -/
structure MetaEntry where
  duration : Option String := none
  genre : Option String := none
  feat : Option String := none
  prod : Option String := none
  label : Option String := none
deriving DecidableEq

/-- The `{}` fallback of `this.metadata[trackKey] || {}`. -/
def emptyEntry : MetaEntry := {}

/-- The object spread `{...old, ...updates}`: a present field of the
update wins, an absent one keeps the old value. -/
def mergeEntry (old u : MetaEntry) : MetaEntry :=
  { duration := u.duration <|> old.duration,
    genre := u.genre <|> old.genre,
    feat := u.feat <|> old.feat,
    prod := u.prod <|> old.prod,
    label := u.label <|> old.label }

/-- `Object.assign(track, updates)`: each present field of the update is
written onto the track; absent fields leave it unchanged. The identity
fields and the play count are untouched (`Partial<TrackMetadata>` has no
such fields). -/
def applyUpdates (t : Track) (u : MetaEntry) : Track :=
  { t with
    duration := u.duration <|> t.duration,
    genre := u.genre <|> t.genre,
    feat := u.feat <|> t.feat,
    prod := u.prod <|> t.prod,
    label := u.label <|> t.label }

/-- The `findIndex` predicate of `updateTrackMetadata`: exact match of the
three identity fields. -/
def matchesIdentity (artist album track : String) (t : Track) : Bool :=
  t.artist == artist && t.album == album && t.track == track

/-- The raw-row shape (`RawTrack`) that the Papa-parse analyzer variant
keeps as its `originalData` shadow copy. -/
structure RawTrack where
  uts : String
  utc_time : String
  artist : String
  artist_mbid : String
  album : String
  album_mbid : String
  track : String
  track_mbid : String
deriving DecidableEq

/-- Mutable fields of a `MusicAnalyzer` instance, plus the
`localStorage['trackMetadata']` slot it persists the overlay to (`none`
models an absent storage entry; `JSON` round-tripping of the overlay map
is injective, so the slot holds the map itself). -/
structure AnalyzerState where
  tracks : List Track
  originalData : List RawTrack
  metadata : JsObj MetaEntry
  storage : Option (JsObj MetaEntry)
deriving DecidableEq

/-- In-place mutation of the element at an index (`this.tracks[i] = ...`);
out-of-range indices leave the list unchanged. -/
def updAt : List Track → Nat → (Track → Track) → List Track
  | [], _, _ => []
  | x :: xs, 0, f => f x :: xs
  | x :: xs, n + 1, f => x :: updAt xs n f

/-- `updateTrackMetadata`: merge the partial update into the overlay entry
for the identity key (creating it when absent), mutate the FIRST in-memory
record whose identity matches (the `findIndex` result) when one exists,
and persist the whole overlay map (`saveMetadata`). -/
def updateTrackMetadata (s : AnalyzerState) (artist album track : String)
    (u : MetaEntry) : AnalyzerState :=
  let key := createTrackKey artist album track
  let m := jsSet s.metadata key (mergeEntry ((jsGet s.metadata key).getD emptyEntry) u)
  let tracks :=
    match s.tracks.findIdx? (matchesIdentity artist album track) with
    | none => s.tracks
    | some i => updAt s.tracks i (fun t => applyUpdates t u)
  { tracks := tracks, originalData := s.originalData, metadata := m, storage := some m }

/-! ### The hand-rolled CSV parser (`parseCSV` of `src/utils/musicAnalyzer.ts`)

The parser splits the text on newlines, validates the header, CLEARS
`this.tracks`, and then pushes one track per data row, throwing as soon
as a row is malformed — so a row-level failure leaves the partially
rebuilt list behind. Errors are modelled by constructor; each corresponds
to one `throw new Error(...)` message of the source. The trailing
`this.loadMetadata()` call names a method this variant does not define
and is modelled as a no-op. -/

inductive ParseError where
  /-- `CSV file is empty` -/
  | emptyFile
  /-- `CSV file must contain at least a header row and one data row` -/
  | tooFewLines
  /-- `Missing required columns: ...` -/
  | missingColumns (cols : List String)
  /-- `Invalid data in row i+1: expected n columns, got m` -/
  | badRowCols (row expected got : Nat)
  /-- `Invalid count value in row i+1: ...` -/
  | badCount (row : Nat) (value : String)
  /-- `No valid tracks found in CSV file` -/
  | noTracks
deriving DecidableEq

def requiredHeaders : List String := ["Artist", "Album", "Track", "Count"]

/-- `text.split('\n')`. -/
def linesOf (text : String) : List String :=
  jsSplit '\n' text

/-- `lines[0].split(',').map(h => h.trim())`. -/
def headersOf (text : String) : List String :=
  (jsSplit ',' ((linesOf text).headD "")).map jsTrim

/-- `requiredHeaders.filter(h => !headers.includes(h))`. -/
def missingHeadersOf (text : String) : List String :=
  requiredHeaders.filter (fun h => !(headersOf text).contains h)

/-- `values[headers.indexOf(name)]`: `none` models the `undefined` read
through index `-1` when the column is absent. -/
def colVal (headers values : List String) (name : String) : Option String :=
  match headers.findIdx? (fun h => h == name) with
  | none => none
  | some k => values.get? k

/-- JavaScript's `x || d` for a string read: `undefined` and `''` fall
back to the default. -/
def jsOrD (x : Option String) (d : String) : String :=
  match x with
  | none => d
  | some "" => d
  | some s => s

/-- `x || undefined`: `''` collapses to `undefined`. -/
def jsOrUndef (x : Option String) : Option String :=
  match x with
  | none => none
  | some "" => none
  | some s => some s

/-- The row loop of `parseCSV`, over `lines[1..]` with `i` the absolute
line index of the current line; `acc` is the `this.tracks` array built so
far. Returns the error (if any) together with the value `this.tracks`
holds when the loop stops — on a throw that is the partially filled
array. -/
def parseLoop (headers : List String) : List String → Nat → List Track →
    Option ParseError × List Track
  | [], _, acc => (none, acc)
  | l :: rest, i, acc =>
    let line := jsTrim l
    if line = "" then parseLoop headers rest (i + 1) acc
    else
      let values := (jsSplit ',' line).map jsTrim
      if values.length ≠ headers.length then
        (some (ParseError.badRowCols (i + 1) headers.length values.length), acc)
      else
        let artist := jsOrD (colVal headers values "Artist") ""
        let album := jsOrD (colVal headers values "Album") ""
        let track := jsOrD (colVal headers values "Track") ""
        let countStr := jsOrD (colVal headers values "Count") "0"
        let duration := jsOrUndef (colVal headers values "Duration")
        let genre := jsOrUndef (colVal headers values "Genre")
        let utc_time := jsOrUndef (colVal headers values "UTC Time")
        match jsParseInt countStr with
        | none => (some (ParseError.badCount (i + 1) ((colVal headers values "Count").getD "")), acc)
        | some c =>
          parseLoop headers rest (i + 1)
            (acc ++ [{ artist := artist, album := album, track := track, count := c,
                       duration := duration, genre := genre, utc_time := utc_time }])

/-- `parseCSV` of the hand-rolled variant, as a transition on the held
track sequence: given the prior `this.tracks` and the file text, it
returns the error (if any) and the value of `this.tracks` after the call.
Failures before the `this.tracks = []` reset leave the prior state;
failures after it leave whatever the loop had built. -/
def parseCSVrun (prior : List Track) (text : String) :
    Option ParseError × List Track :=
  if jsTrim text = "" then (some ParseError.emptyFile, prior)
  else if (linesOf text).length < 2 then (some ParseError.tooFewLines, prior)
  else if missingHeadersOf text ≠ [] then
    (some (ParseError.missingColumns (missingHeadersOf text)), prior)
  else
    match parseLoop (headersOf text) ((linesOf text).drop 1) 1 [] with
    | (some e, acc) => (some e, acc)
    | (none, acc) =>
      if acc.isEmpty then (some ParseError.noTracks, acc) else (none, acc)

/-! ### The Papa-parse analyzer variant and `saveToCSV`

Papa Parse itself is the external CSV-text primitive; the adapter is
modelled at its record boundary: `Papa.parse(file, {header: true, ...})`
delivers an ordered sequence of row objects whose fields may be absent,
and `Papa.unparse` emits one CSV row per object, `undefined` becoming the
empty cell. The `transform: value => value.trim()` option is part of this
analyzer's Papa configuration and is modelled inside the row
conversion. -/

/-- A row object delivered by Papa Parse: any of the columns this variant
reads may be present or absent. -/
structure PapaRow where
  uts : Option String := none
  utc_time : Option String := none
  artist : Option String := none
  artist_mbid : Option String := none
  album : Option String := none
  album_mbid : Option String := none
  track : Option String := none
  track_mbid : Option String := none
  duration : Option String := none
  genre : Option String := none
  feat : Option String := none
  prod : Option String := none
  label : Option String := none
deriving DecidableEq

/-- `row.field || ''` over the eight raw columns, with the configured
`transform` trim applied to every delivered value: the `originalData`
entry for one row. -/
def toRaw (r : PapaRow) : RawTrack :=
  { uts := jsTrim (r.uts.getD ""),
    utc_time := jsTrim (r.utc_time.getD ""),
    artist := jsTrim (r.artist.getD ""),
    artist_mbid := jsTrim (r.artist_mbid.getD ""),
    album := jsTrim (r.album.getD ""),
    album_mbid := jsTrim (r.album_mbid.getD ""),
    track := jsTrim (r.track.getD ""),
    track_mbid := jsTrim (r.track_mbid.getD "") }

/-- The track built from one `originalData` row: identity and timestamp
from the row, enrichment fields spread from the overlay entry for the
row's identity key when one exists, else all defaulted to `''`. (This
variant's track objects carry no `count` property; the analyzer never
reads it, and it is modelled as `0`.) -/
def mkTrackP1 (meta : JsObj MetaEntry) (r : RawTrack) : Track :=
  match jsGet meta (createTrackKey r.artist r.album r.track) with
  | none =>
    { artist := r.artist, album := r.album, track := r.track, count := 0,
      duration := some "", genre := some "", utc_time := some r.utc_time,
      feat := some "", prod := some "", label := some "" }
  | some e =>
    { artist := r.artist, album := r.album, track := r.track, count := 0,
      duration := e.duration, genre := e.genre, utc_time := some r.utc_time,
      feat := e.feat, prod := e.prod, label := e.label }

/-- `originalData` after the Papa-parse variant's `parseCSV`. -/
def p1OriginalData (rows : List PapaRow) : List RawTrack :=
  rows.map toRaw

/-- `this.tracks` after the Papa-parse variant's `parseCSV`. -/
def p1Tracks (meta : JsObj MetaEntry) (rows : List PapaRow) : List Track :=
  (p1OriginalData rows).map (mkTrackP1 meta)

/-- The Papa-parse variant's `parseCSV` at the record boundary: rejects an
empty row sequence (`No valid data found in CSV file`), otherwise yields
the `(originalData, tracks)` pair it stores. -/
def parseP1 (meta : JsObj MetaEntry) (rows : List PapaRow) :
    Except String (List RawTrack × List Track) :=
  if rows.isEmpty then Except.error "No valid data found in CSV file"
  else Except.ok (p1OriginalData rows, p1Tracks meta rows)

/-- One merged output row of `saveToCSV`:
`{...row, duration: tracks[i].duration, ...}`. -/
structure FullRow where
  uts : String
  utc_time : String
  artist : String
  artist_mbid : String
  album : String
  album_mbid : String
  track : String
  track_mbid : String
  duration : Option String
  genre : Option String
  feat : Option String
  prod : Option String
  label : Option String
deriving DecidableEq

def mergeRow (r : RawTrack) (t : Track) : FullRow :=
  { uts := r.uts, utc_time := r.utc_time, artist := r.artist,
    artist_mbid := r.artist_mbid, album := r.album, album_mbid := r.album_mbid,
    track := r.track, track_mbid := r.track_mbid,
    duration := t.duration, genre := t.genre, feat := t.feat,
    prod := t.prod, label := t.label }

/-- `saveToCSV`'s record sequence: `originalData` merged index-wise with
the current tracks (`Papa.unparse` then renders it; an empty sequence
renders to the empty file). In the code's own uses the two lists have
equal length; in particular when `originalData` is empty the output is
empty. -/
def saveRows (orig : List RawTrack) (tracks : List Track) : List FullRow :=
  List.zipWith mergeRow orig tracks

/-- What `Papa.parse` delivers back from `Papa.unparse`'s text: every one
of the thirteen columns present, an `undefined` field having been written
as the empty cell. -/
def papaEcho (f : FullRow) : PapaRow :=
  { uts := some f.uts, utc_time := some f.utc_time, artist := some f.artist,
    artist_mbid := some f.artist_mbid, album := some f.album,
    album_mbid := some f.album_mbid, track := some f.track,
    track_mbid := some f.track_mbid,
    duration := some (f.duration.getD ""), genre := some (f.genre.getD ""),
    feat := some (f.feat.getD ""), prod := some (f.prod.getD ""),
    label := some (f.label.getD "") }

/-- The record sequence the serialized CSV parses back to. -/
def rtRows (orig : List RawTrack) (tracks : List Track) : List PapaRow :=
  (saveRows orig tracks).map papaEcho

/-! ### Concrete fixtures used by the theorems below -/

/-- The two-row scenario input of the spec. -/
def csvTwoRows : String := "Artist,Album,Track,Count\nA,X,T1,3\nA,X,T2,5"

/-- A single pre-aggregated row with Count 3. -/
def csvOneRow : String := "Artist,Album,Track,Count\nA,X,T1,3"

/-- A record loaded before a later parse attempt. -/
def priorTrack : Track :=
  { artist := "OLD", album := "O", track := "O", count := 1 }

/-- A file whose first data row is valid and whose second has a
non-numeric count. -/
def csvBadRow : String := "Artist,Album,Track,Count\nA,X,T1,3\nB,Y,T2,notanumber"

/-- The required header names in lower case. -/
def csvLowercase : String := "artist,album,track,count\nA,X,T,3"

/-- The required header names padded with spaces. -/
def csvPadded : String := "  Artist ,Album , Track,Count  \nA,X,T,3"

/-- The analyzer state right after parsing `csvOneRow` with an empty
overlay. -/
def stateOneRow : AnalyzerState :=
  { tracks := (parseCSVrun [] csvOneRow).2, originalData := [],
    metadata := [], storage := none }

/-- `stateOneRow` after `update("A","X","T1",{duration:"120"})`. -/
def stateAfterDur : AnalyzerState :=
  updateTrackMetadata stateOneRow "A" "X" "T1" { duration := some "120" }

/-- One of two records sharing the identity `("A","X","T1")`. -/
def twinTrack : Track := { artist := "A", album := "X", track := "T1", count := 1 }

/-- A state holding two records with the same identity. -/
def stateTwins : AnalyzerState :=
  { tracks := [twinTrack, twinTrack], originalData := [], metadata := [],
    storage := none }

/-- `stateTwins` after `update("A","X","T1",{duration:"120"})`. -/
def stateTwinsUpd : AnalyzerState :=
  updateTrackMetadata stateTwins "A" "X" "T1" { duration := some "120" }

/-- A record whose artist is `"a|b"` on album `"c"`. -/
def keyTrackA : Track := { artist := "a|b", album := "c", track := "t", count := 1 }

/-- A record whose artist is `"a"` on album `"b|c"`: a different identity
with the same `createTrackKey`. -/
def keyTrackB : Track := { artist := "a", album := "b|c", track := "t", count := 1 }

/-- The raw row of `keyTrackB`'s identity as the Papa-parse variant loads
it. -/
def rawRowB : RawTrack :=
  { uts := "", utc_time := "", artist := "a", artist_mbid := "",
    album := "b|c", album_mbid := "", track := "t", track_mbid := "" }

/-- A record with a parsed duration of 100 seconds. -/
def durTrack100 : Track :=
  { artist := "A", album := "X", track := "T", count := 1, duration := some "100" }

/-- A record with an absent (`undefined`) duration. -/
def durTrackNone : Track :=
  { artist := "A", album := "X", track := "U", count := 1 }

/-- Fixture for C8's theorem/counterexample. -/
def ts8 : List Track := [durTrack100, durTrackNone]

/-- A well-formed row at the Papa record boundary. -/
def papaRowOne : PapaRow :=
  { uts := some "1", utc_time := some "2024-01-01 00:00",
    artist := some "A", album := some "X", track := some "T" }

/-- Two single-play records whose artist names are the integer-like
strings `"10"` (first) and `"2"` (second). -/
def numericArtists : List Track :=
  [{ artist := "10", album := "X", track := "S", count := 1 },
   { artist := "2", album := "X", track := "T", count := 1 }]

/-- Two single-play records whose artist names are `"B"` (first) and
`"A"` (second): alphabetical order opposes input order. -/
def letterArtists : List Track :=
  [{ artist := "B", album := "X", track := "S", count := 1 },
   { artist := "A", album := "X", track := "T", count := 1 }]

/-! ## Basic facts about the JavaScript object model -/

lemma jsGet_jsSet_self {α : Type} (m : JsObj α) (k : String) (v : α) :
    jsGet (jsSet m k v) k = some v := by
  induction m with
  | nil => simp [jsSet, jsGet]
  | cons p t ih =>
    by_cases h : p.1 == k
    · simp [jsSet, jsGet, h]
    · simp only [jsSet]
      rw [if_neg (by simpa using h)]
      simp [jsGet, h, ih]

lemma jsGet_jsSet_ne {α : Type} (m : JsObj α) (k key : String) (v : α)
    (h : k ≠ key) : jsGet (jsSet m key v) k = jsGet m k := by
  induction m with
  | nil =>
    have hk : ¬ ((key == k) = true) := by
      simp only [beq_iff_eq]
      exact fun hh => h hh.symm
    simp [jsSet, jsGet, hk]
  | cons p t ih =>
    by_cases hp : (p.1 == key) = true
    · have hpk : ¬ ((p.1 == k) = true) := by
        simp only [beq_iff_eq] at hp ⊢
        rw [hp]
        exact fun hh => h hh.symm
      simp [jsSet, jsGet, hp, hpk]
    · simp only [jsSet]
      rw [if_neg hp]
      by_cases hpk : (p.1 == k) = true
      · simp [jsGet, hpk]
      · simp [jsGet, hpk, ih]

lemma jsSet_jsSet_self {α : Type} (m : JsObj α) (k : String) (v w : α) :
    jsSet (jsSet m k v) k w = jsSet m k w := by
  induction m with
  | nil => simp [jsSet]
  | cons p t ih =>
    by_cases h : p.1 == k
    · simp [jsSet, h]
    · simp only [jsSet]
      rw [if_neg h]
      simp only [jsSet]
      rw [if_neg h, if_neg h, ih]

/-- Play counts do not enter the duration totals: replacing every
record's count by 1 leaves `totalDuration` unchanged. -/
lemma totalDurationSecs_countOne (ts : List Track) :
    totalDurationSecs (ts.map (fun t => { t with count := 1 })) = totalDurationSecs ts := by
  suffices haux : ∀ (l : List Track) (a : Int),
      (List.filter (fun t => t.duration != some "") (l.map (fun t => { t with count := 1 }))).foldl
          (fun s t => s + jsDurVal t) a
        = (List.filter (fun t => t.duration != some "") l).foldl (fun s t => s + jsDurVal t) a by
    exact haux ts 0
  intro l
  induction l with
  | nil => intro a; rfl
  | cons t rest ih =>
    intro a
    simp only [List.map_cons, List.filter_cons]
    by_cases h : (t.duration != some "") = true
    · rw [if_pos h, if_pos h]
      simp only [List.foldl_cons]
      exact ih _
    · rw [if_neg h, if_neg h]
      exact ih a

/-! ## Claim theorems: concrete scenarios -/

/-- Claim C1 counterexample: on the two-row input `(A,X,T1,Count 3)`,
`(A,X,T2,Count 5)` the parse succeeds, but `analyze` does NOT return
`topArtists = [(A, 8)]`, and `topTracks` is NOT ordered `[T2(5), T1(3)]`:
the engine counts records, not the `Count` field. -/
theorem analyze_two_row_scenario_not_playcount_sum :
    (parseCSVrun [] csvTwoRows).1 = none ∧
    (analyze (parseCSVrun [] csvTwoRows).2).topArtists.map
        (fun i => (i.name, i.count)) ≠ [("A", 8)] ∧
    (analyze (parseCSVrun [] csvTwoRows).2).topTracks.map
        (fun i => (i.name, i.count)) ≠ [("T2", 5), ("T1", 3)] := by
  decide

/-- Claim C1 (amended): on the two-row input, each group's count is its
number of records — `topArtists = [(A, 2)]`, and `topTracks` is
`[T1(1), T2(1)]`, the tie keeping input order. -/
theorem analyze_two_row_scenario_counts_rows :
    (parseCSVrun [] csvTwoRows).1 = none ∧
    (analyze (parseCSVrun [] csvTwoRows).2).topArtists.map
        (fun i => (i.name, i.count)) = [("A", 2)] ∧
    (analyze (parseCSVrun [] csvTwoRows).2).topTracks.map
        (fun i => (i.name, i.count)) = [("T1", 1), ("T2", 1)] := by
  decide

/-- Claim C2 counterexample: after `update("A","X","T1",{duration:"120"})`
on the single-record group parsed from `(A,X,T1,Count 3)`, `analyze`
includes 120 seconds once — `totalListeningTime = 120/3600` hours, not the
claimed `(120 × 3)/3600`. -/
theorem totalListeningTime_update_scenario_not_weighted :
    (analyze stateAfterDur.tracks).totalListeningTime = 120 / 3600 ∧
    ((120 : ℚ) / 3600 ≠ 360 / 3600) := by
  constructor
  · have h : totalDurationSecs stateAfterDur.tracks = 120 := by decide
    show (totalDurationSecs stateAfterDur.tracks : ℚ) / 3600 = 120 / 3600
    rw [h]
    norm_num
  · norm_num

/-- Claim C2 (amended): `totalListeningTime` is the sum over records with
a non-empty-string duration of each record's own parsed duration, taken
once per record (the play count is not a factor: setting every count to 1
changes nothing), divided by 3600; in the update scenario the enriched
group contributes its 120 seconds once. -/
theorem totalListeningTime_per_record_once :
    (∀ ts : List Track,
      (analyze ts).totalListeningTime = (totalDurationSecs ts : ℚ) / 3600 ∧
      totalDurationSecs (ts.map (fun t => { t with count := 1 })) = totalDurationSecs ts) ∧
    (analyze stateAfterDur.tracks).totalListeningTime = 120 / 3600 := by
  refine ⟨fun ts => ⟨rfl, totalDurationSecs_countOne ts⟩, ?_⟩
  have h : totalDurationSecs stateAfterDur.tracks = 120 := by decide
  show (totalDurationSecs stateAfterDur.tracks : ℚ) / 3600 = 120 / 3600
  rw [h]
  norm_num

/-- Claim C5 counterexample: with two in-memory records matching the
identity `("A","X","T1")`, the update writes the new duration onto the
first record only; the second still matches the identity but keeps its
absent duration. -/
theorem updateTrackMetadata_misses_second_match :
    stateTwinsUpd.tracks.map Track.duration = [some "120", none] ∧
    matchesIdentity "A" "X" "T1" twinTrack = true ∧
    stateTwins.tracks.get? 1 = some twinTrack := by
  decide

/-- Claim C6 counterexample: parsing `csvBadRow` over a non-empty store
fails on the second data row's count, yet the store is not left in its
prior state — it holds the one row parsed before the failure. -/
theorem parseCSV_row_failure_partial_state :
    (parseCSVrun [priorTrack] csvBadRow).1
        = some (ParseError.badCount 3 "notanumber") ∧
    (parseCSVrun [priorTrack] csvBadRow).2 ≠ [priorTrack] ∧
    (parseCSVrun [priorTrack] csvBadRow).2.map (fun t => t.artist) = ["A"] := by
  decide

/-- Claim C8 counterexample: with one 100-second record and one record of
absent duration, the absent-duration record passes the `!== ''` filter and
lands in the average's denominator: `averageTrackDuration` is `50/60`
minutes, not the `100/60` the claim's exclusion would give. -/
theorem absent_duration_shifts_average :
    (analyze ts8).averageTrackDuration = 50 / 60 ∧
    ((50 : ℚ) / 60 ≠ 100 / 60) ∧
    (tracksWithDuration ts8).length = 2 ∧
    durTrackNone.duration = none := by
  refine ⟨?_, by norm_num, by decide, rfl⟩
  have h1 : totalDurationSecs ts8 = 100 := by decide
  have h2 : (tracksWithDuration ts8).length = 2 := by decide
  show averageDurationSecs ts8 / 60 = 50 / 60
  rw [averageDurationSecs, if_pos (by decide), h1, h2]
  norm_num

/-- Claim C9 counterexample: a header differing from the required names
only in letter case is rejected with the missing-required-columns error —
header matching is case-sensitive. -/
theorem header_case_sensitive_rejects :
    (parseCSVrun [] csvLowercase).1
        = some (ParseError.missingColumns ["Artist", "Album", "Track", "Count"]) ∧
    headersOf csvLowercase = ["artist", "album", "track", "count"] := by
  decide

/-- Claim C10: `createTrackKey` is not injective — the identities
`("a|b","c","t")` and `("a","b|c","t")` share one key; an overlay entry
written through `updateTrackMetadata` for the first identity is found at
load time for the second; `getTopTracks` merges the two records into a
single group of count 2 whose reported name is the third `|`-separated
segment of the key, `"c"` (a piece of the album, not the track name). -/
theorem trackKey_collision_merges_groups :
    createTrackKey "a|b" "c" "t" = createTrackKey "a" "b|c" "t" ∧
    ("a|b", "c") ≠ ("a", "b|c") ∧
    (getTopTracks [keyTrackA, keyTrackB]).map (fun i => (i.name, i.count))
        = [("c", 2)] ∧
    (jsSplit '|' (createTrackKey "a|b" "c" "t")).getD 2 "" = "c" ∧
    (mkTrackP1
        (updateTrackMetadata ⟨[], [], [], none⟩ "a|b" "c" "t"
          { genre := some "Rock" }).metadata
        rawRowB).genre = some "Rock" := by
  decide

/-! ## The metadata overlay update -/

lemma updAt_get?_ne (l : List Track) (i : Nat) (f : Track → Track) (j : Nat)
    (hj : j ≠ i) : (updAt l i f).get? j = l.get? j := by
  induction l generalizing i j with
  | nil => rfl
  | cons x xs ih =>
    cases i with
    | zero =>
      cases j with
      | zero => exact absurd rfl hj
      | succ j => rfl
    | succ n =>
      cases j with
      | zero => rfl
      | succ j => exact ih n j (fun hh => hj (by rw [hh]))

lemma updAt_updAt (l : List Track) (i : Nat) (f g : Track → Track) :
    updAt (updAt l i f) i g = updAt l i (fun t => g (f t)) := by
  induction l generalizing i with
  | nil => rfl
  | cons x xs ih =>
    cases i with
    | zero => rfl
    | succ n => simp [updAt, ih]

lemma orElse_idem_assoc (a b : Option String) : (a <|> (a <|> b)) = (a <|> b) := by
  cases a <;> rfl

lemma mergeEntry_merge (o u : MetaEntry) :
    mergeEntry (mergeEntry o u) u = mergeEntry o u := by
  simp [mergeEntry, orElse_idem_assoc]

lemma applyUpdates_idem (t : Track) (u : MetaEntry) :
    applyUpdates (applyUpdates t u) u = applyUpdates t u := by
  simp [applyUpdates, orElse_idem_assoc]

lemma matchesIdentity_applyUpdates (a b c : String) (t : Track) (u : MetaEntry) :
    matchesIdentity a b c (applyUpdates t u) = matchesIdentity a b c t := rfl

lemma findIdx?_updAt (p : Track → Bool) (l : List Track) (i st : Nat)
    (f : Track → Track) (hf : ∀ t, p (f t) = p t) :
    (updAt l i f).findIdx? p st = l.findIdx? p st := by
  induction l generalizing i st with
  | nil => rfl
  | cons x xs ih =>
    cases i with
    | zero => simp [updAt, List.findIdx?_cons, hf]
    | succ n => simp [updAt, List.findIdx?_cons, ih]

/-- Claim C5 (amended): `updateTrackMetadata` merges the partial fields
into the overlay entry for the identity key (creating it if absent) and
persists the whole overlay map, but it mutates only the FIRST in-memory
record matching the identity: every other position of the track list is
untouched. -/
theorem updateTrackMetadata_first_match_only
    (s : AnalyzerState) (artist album track : String) (u : MetaEntry) (i : Nat)
    (h : s.tracks.findIdx? (matchesIdentity artist album track) = some i) :
    jsGet (updateTrackMetadata s artist album track u).metadata
        (createTrackKey artist album track)
      = some (mergeEntry
          ((jsGet s.metadata (createTrackKey artist album track)).getD emptyEntry) u) ∧
    (updateTrackMetadata s artist album track u).storage
      = some (updateTrackMetadata s artist album track u).metadata ∧
    (updateTrackMetadata s artist album track u).tracks
      = updAt s.tracks i (fun t => applyUpdates t u) ∧
    ∀ j, j ≠ i → (updateTrackMetadata s artist album track u).tracks.get? j
      = s.tracks.get? j := by
  refine ⟨jsGet_jsSet_self _ _ _, rfl, ?_, ?_⟩
  · simp [updateTrackMetadata, h]
  · intro j hj
    simp only [updateTrackMetadata, h]
    exact updAt_get?_ne _ _ _ _ hj

/-- Witness for C5's amended theorem at the two-twin state: the first
match is index 0 and the conclusions hold there. -/
theorem updateTrackMetadata_first_match_only_witness :
    stateTwins.tracks.findIdx? (matchesIdentity "A" "X" "T1") = some 0 ∧
    (jsGet (updateTrackMetadata stateTwins "A" "X" "T1"
          { duration := some "120" }).metadata
        (createTrackKey "A" "X" "T1")
      = some (mergeEntry
          ((jsGet stateTwins.metadata (createTrackKey "A" "X" "T1")).getD emptyEntry)
          { duration := some "120" }) ∧
    (updateTrackMetadata stateTwins "A" "X" "T1" { duration := some "120" }).storage
      = some (updateTrackMetadata stateTwins "A" "X" "T1"
          { duration := some "120" }).metadata ∧
    (updateTrackMetadata stateTwins "A" "X" "T1" { duration := some "120" }).tracks
      = updAt stateTwins.tracks 0 (fun t => applyUpdates t { duration := some "120" }) ∧
    ∀ j, j ≠ 0 → (updateTrackMetadata stateTwins "A" "X" "T1"
          { duration := some "120" }).tracks.get? j
      = stateTwins.tracks.get? j) :=
  ⟨by decide,
   updateTrackMetadata_first_match_only stateTwins "A" "X" "T1"
     { duration := some "120" } 0 (by decide)⟩

/-- Claim C7: calling `updateTrackMetadata` twice with the same identity
and the same fields yields exactly the state one call yields — the
overlay merge, the in-memory assignment and the persisted snapshot are
all idempotent. -/
theorem updateTrackMetadata_idempotent
    (s : AnalyzerState) (artist album track : String) (u : MetaEntry) :
    updateTrackMetadata (updateTrackMetadata s artist album track u)
        artist album track u
      = updateTrackMetadata s artist album track u := by
  unfold updateTrackMetadata
  have hmeta :
      jsSet (jsSet s.metadata (createTrackKey artist album track)
          (mergeEntry ((jsGet s.metadata (createTrackKey artist album track)).getD emptyEntry) u))
        (createTrackKey artist album track)
        (mergeEntry
          ((jsGet (jsSet s.metadata (createTrackKey artist album track)
              (mergeEntry ((jsGet s.metadata (createTrackKey artist album track)).getD emptyEntry) u))
            (createTrackKey artist album track)).getD emptyEntry) u)
      = jsSet s.metadata (createTrackKey artist album track)
          (mergeEntry ((jsGet s.metadata (createTrackKey artist album track)).getD emptyEntry) u) := by
    rw [jsGet_jsSet_self]
    rw [Option.getD_some, mergeEntry_merge, jsSet_jsSet_self]
  cases hidx : s.tracks.findIdx? (matchesIdentity artist album track) with
  | none => simp only [hidx, hmeta]
  | some i =>
    have hsame :
        (updAt s.tracks i (fun t => applyUpdates t u)).findIdx?
            (matchesIdentity artist album track)
          = some i := by
      rw [findIdx?_updAt _ _ _ _ _ (fun t => matchesIdentity_applyUpdates _ _ _ t u)]
      exact hidx
    simp only [hidx, hsame, hmeta, updAt_updAt]
    have htr : ∀ t : Track,
        applyUpdates (applyUpdates t u) u = applyUpdates t u :=
      fun t => applyUpdates_idem t u
    have : (fun t => applyUpdates (applyUpdates t u) u)
        = (fun t => applyUpdates t u) := funext htr
    rw [this]

/-! ## Parse-failure state effects -/

/-- Claim C6 (amended): only the failures detected before the parser
clears the store — empty text, fewer than two lines, missing required
columns — leave the Record Store in its prior state. (Once row parsing
begins the store has already been cleared, and a row-level failure leaves
the partially rebuilt list, as the counterexample shows.) -/
theorem parseCSV_header_phase_preserves_store
    (prior : List Track) (text : String)
    (h : jsTrim text = "" ∨ (linesOf text).length < 2 ∨ missingHeadersOf text ≠ []) :
    (parseCSVrun prior text).2 = prior ∧ (parseCSVrun prior text).1.isSome = true := by
  unfold parseCSVrun
  by_cases h1 : jsTrim text = ""
  · simp [h1]
  · by_cases h2 : (linesOf text).length < 2
    · simp [h1, h2]
    · have h3 : missingHeadersOf text ≠ [] := by
        rcases h with h | h | h
        · exact absurd h h1
        · exact absurd h h2
        · exact h
      simp [h1, h2, h3]

/-- Witness for C6's amended theorem: a header-phase failure (missing
columns) over a non-empty store leaves it untouched. -/
theorem parseCSV_header_phase_preserves_store_witness :
    (jsTrim csvLowercase = "" ∨ (linesOf csvLowercase).length < 2 ∨
      missingHeadersOf csvLowercase ≠ []) ∧
    ((parseCSVrun [priorTrack] csvLowercase).2 = [priorTrack] ∧
      (parseCSVrun [priorTrack] csvLowercase).1.isSome = true) :=
  ⟨by decide,
   parseCSV_header_phase_preserves_store [priorTrack] csvLowercase (by decide)⟩

/-- The row loop only ever fails with a row-shape or count error, never
with the missing-columns error. -/
lemma parseLoop_no_missingColumns (headers : List String) (lines : List String)
    (i : Nat) (acc : List Track) (cols : List String) :
    (parseLoop headers lines i acc).1 ≠ some (ParseError.missingColumns cols) := by
  induction lines generalizing i acc with
  | nil => simp [parseLoop]
  | cons l rest ih =>
    simp only [parseLoop]
    split
    · exact ih _ _
    · split
      · simp
      · split
        · simp
        · exact ih _ _

/-- Claim C9 (amended): header matching is whitespace-tolerant but
case-sensitive — whenever every required column name occurs verbatim
among the trimmed header cells, no missing-required-columns failure is
possible; a case difference, by contrast, is rejected (see the
counterexample). -/
theorem header_whitespace_tolerant
    (prior : List Track) (text : String)
    (h : ∀ hreq ∈ requiredHeaders, (headersOf text).contains hreq = true) :
    missingHeadersOf text = [] ∧
    ∀ cols, (parseCSVrun prior text).1 ≠ some (ParseError.missingColumns cols) := by
  have hm : missingHeadersOf text = [] := by
    unfold missingHeadersOf
    rw [List.filter_eq_nil_iff]
    intro a ha
    have hc := h a ha
    simp at hc
    simp [hc]
  refine ⟨hm, fun cols => ?_⟩
  unfold parseCSVrun
  by_cases h1 : jsTrim text = ""
  · simp [h1]
  · by_cases h2 : (linesOf text).length < 2
    · simp [h1, h2]
    · rw [if_neg h1, if_neg h2, if_neg (by simp [hm])]
      cases hp : parseLoop (headersOf text) ((linesOf text).drop 1) 1 [] with
      | mk err acc =>
        have hnm := parseLoop_no_missingColumns (headersOf text)
          ((linesOf text).drop 1) 1 [] cols
        rw [hp] at hnm
        cases err with
        | none => by_cases hacc : acc.isEmpty <;> simp [hacc]
        | some e => simpa using hnm

/-- Witness for C9's amended theorem: space-padded header cells trim to
the required names and the parse cannot fail with missing columns. -/
theorem header_whitespace_tolerant_witness :
    (∀ hreq ∈ requiredHeaders, (headersOf csvPadded).contains hreq = true) ∧
    (missingHeadersOf csvPadded = [] ∧
      ∀ cols, (parseCSVrun [] csvPadded).1 ≠ some (ParseError.missingColumns cols)) :=
  ⟨by decide, header_whitespace_tolerant [] csvPadded (by decide)⟩

/-! ## Duration handling -/

lemma tracksWithDuration_append_none (ts : List Track) (t : Track)
    (hd : t.duration = none) :
    tracksWithDuration (ts ++ [t]) = tracksWithDuration ts ++ [t] := by
  have hpa : ((fun x : Track => x.duration != some "") t) = true := by
    show (t.duration != some "") = true
    rw [hd]
    rfl
  unfold tracksWithDuration
  rw [List.filter_append]
  congr 1
  simp [List.filter_cons, hpa]

lemma totalDurationSecs_append_none (ts : List Track) (t : Track)
    (hd : t.duration = none) :
    totalDurationSecs (ts ++ [t]) = totalDurationSecs ts := by
  show (tracksWithDuration (ts ++ [t])).foldl (fun s t => s + jsDurVal t) 0
      = (tracksWithDuration ts).foldl (fun s t => s + jsDurVal t) 0
  rw [tracksWithDuration_append_none ts t hd, List.foldl_append]
  simp [jsDurVal, hd]

lemma artistList_append (ts : List Track) (t : Track)
    (ha : jsTrim t.artist ≠ "") :
    artistList (ts ++ [t]) = artistList ts ++ [t.artist] := by
  have hpa : ((fun x : Track => jsTrim x.artist != "") t) = true := by
    show (jsTrim t.artist != "") = true
    exact bne_iff_ne.mpr ha
  unfold artistList
  rw [List.filter_append, List.map_append]
  congr 1
  simp [List.filter_cons, hpa]

lemma countOccurrences_append_last (l : List String) (a : String) :
    jsGet (countOccurrences (l ++ [a])) a
      = some ((jsGet (countOccurrences l) a).getD 0 + 1) := by
  unfold countOccurrences
  rw [List.foldl_append]
  simp only [List.foldl_cons, List.foldl_nil, jsInc]
  exact jsGet_jsSet_self _ _ _

/-- Claim C8 (amended): a record whose duration is absent (`undefined`)
still contributes to the group counts and adds 0 seconds to the duration
total, but — because the filter only excludes the empty string — it IS
counted in `averageTrackDuration`'s denominator. -/
theorem absent_duration_in_average_denominator
    (ts : List Track) (t : Track) (hd : t.duration = none) :
    totalDurationSecs (ts ++ [t]) = totalDurationSecs ts ∧
    (tracksWithDuration (ts ++ [t])).length = (tracksWithDuration ts).length + 1 ∧
    (jsTrim t.artist ≠ "" →
      jsGet (artistCounts (ts ++ [t])) t.artist
        = some ((jsGet (artistCounts ts) t.artist).getD 0 + 1)) ∧
    (analyze (ts ++ [t])).averageTrackDuration
      = (totalDurationSecs ts : ℚ) / (((tracksWithDuration ts).length : ℚ) + 1) / 60 := by
  refine ⟨totalDurationSecs_append_none ts t hd, ?_, ?_, ?_⟩
  · rw [tracksWithDuration_append_none ts t hd]
    simp
  · intro ha
    show jsGet (countOccurrences (artistList (ts ++ [t]))) t.artist
        = some ((jsGet (countOccurrences (artistList ts)) t.artist).getD 0 + 1)
    rw [artistList_append ts t ha, countOccurrences_append_last]
  · show averageDurationSecs (ts ++ [t]) / 60 = _
    rw [averageDurationSecs,
      if_pos (by rw [tracksWithDuration_append_none ts t hd]; simp)]
    rw [totalDurationSecs_append_none ts t hd, tracksWithDuration_append_none ts t hd]
    simp only [List.length_append, List.length_cons, List.length_nil]
    push_cast
    ring

/-- Witness for C8's amended theorem at a 100-second record plus an
absent-duration record. -/
theorem absent_duration_in_average_denominator_witness :
    durTrackNone.duration = none ∧
    (totalDurationSecs ([durTrack100] ++ [durTrackNone]) = totalDurationSecs [durTrack100] ∧
    (tracksWithDuration ([durTrack100] ++ [durTrackNone])).length
      = (tracksWithDuration [durTrack100]).length + 1 ∧
    (jsTrim durTrackNone.artist ≠ "" →
      jsGet (artistCounts ([durTrack100] ++ [durTrackNone])) durTrackNone.artist
        = some ((jsGet (artistCounts [durTrack100]) durTrackNone.artist).getD 0 + 1)) ∧
    (analyze ([durTrack100] ++ [durTrackNone])).averageTrackDuration
      = (totalDurationSecs [durTrack100] : ℚ)
          / (((tracksWithDuration [durTrack100]).length : ℚ) + 1) / 60) :=
  ⟨rfl, absent_duration_in_average_denominator [durTrack100] durTrackNone rfl⟩

/-! ## Round-trip of the Papa-parse adapter

`value.trim()` (the configured Papa `transform`) is idempotent, which is
what makes the second parse reproduce the first one's records. -/

/-- Lists with no leading whitespace character. -/
def noLeadWs (l : List Char) : Prop :=
  ∀ h t, l = h :: t → Char.isWhitespace h = false

lemma dropWhile_shape (p : Char → Bool) (l : List Char) :
    List.dropWhile p l = [] ∨
      ∃ h t, List.dropWhile p l = h :: t ∧ p h = false := by
  induction l with
  | nil => left; rfl
  | cons x xs ih =>
    by_cases hx : p x = true
    · simpa [List.dropWhile, hx] using ih
    · right
      exact ⟨x, xs, by simp [List.dropWhile, hx], by simpa using hx⟩

lemma noLeadWs_dropWhile (l : List Char) :
    noLeadWs (l.dropWhile Char.isWhitespace) := by
  intro h t heq
  rcases dropWhile_shape Char.isWhitespace l with hnil | ⟨h', t', heq', hp⟩
  · rw [hnil] at heq
    exact absurd heq (by simp)
  · rw [heq'] at heq
    injection heq with h1 h2
    rw [← h1]
    exact hp

lemma dropWhile_of_noLeadWs (l : List Char) (hok : noLeadWs l) :
    l.dropWhile Char.isWhitespace = l := by
  cases l with
  | nil => rfl
  | cons h t => simp [List.dropWhile, hok h t rfl]

lemma noLeadWs_concat (l : List Char) (x : Char) (hok : noLeadWs (l ++ [x])) :
    noLeadWs l := by
  intro h t heq
  exact hok h (t ++ [x]) (by rw [heq]; rfl)

lemma noLeadWs_rdropWhile (l : List Char) (hok : noLeadWs l) :
    noLeadWs (List.rdropWhile Char.isWhitespace l) := by
  induction l using List.reverseRecOn with
  | nil => intro h t heq; exact absurd heq (by simp [List.rdropWhile])
  | append_singleton l x ih =>
    rw [List.rdropWhile_concat]
    by_cases hx : Char.isWhitespace x
    · rw [if_pos hx]
      exact ih (noLeadWs_concat l x hok)
    · rw [if_neg hx]
      exact hok

lemma trimList_eq_rdrop (l : List Char) :
    trimList l = List.rdropWhile Char.isWhitespace (l.dropWhile Char.isWhitespace) := rfl

lemma trimList_idem (cs : List Char) : trimList (trimList cs) = trimList cs := by
  rw [trimList_eq_rdrop, trimList_eq_rdrop,
    dropWhile_of_noLeadWs _ (noLeadWs_rdropWhile _ (noLeadWs_dropWhile _)),
    List.rdropWhile_idempotent]

lemma jsTrim_idem (s : String) : jsTrim (jsTrim s) = jsTrim s := by
  show String.mk (trimList (String.mk (trimList s.toList)).toList) = _
  rw [show (String.mk (trimList s.toList)).toList = trimList s.toList from rfl,
    trimList_idem]
  rfl

/-- The eight raw columns survive a serialize-then-parse cycle: the
re-delivered cells are the already-trimmed raw values, and trimming is
idempotent. -/
lemma roundtrip_raw (pr : PapaRow) (t : Track) :
    toRaw (papaEcho (mergeRow (toRaw pr) t)) = toRaw pr := by
  simp [toRaw, papaEcho, mergeRow, jsTrim_idem]

lemma zipWith_mergeRow_map (l : List RawTrack) (g : RawTrack → Track) :
    List.zipWith mergeRow l (l.map g) = l.map (fun r => mergeRow r (g r)) := by
  induction l with
  | nil => rfl
  | cons x xs ih => simp [ih]

lemma rt_originalData (meta : JsObj MetaEntry) (rows : List PapaRow) :
    p1OriginalData (rtRows (p1OriginalData rows) (p1Tracks meta rows))
      = p1OriginalData rows := by
  show List.map toRaw (List.map papaEcho (List.zipWith mergeRow
      (List.map toRaw rows) (List.map (mkTrackP1 meta) (List.map toRaw rows))))
    = List.map toRaw rows
  rw [zipWith_mergeRow_map]
  simp only [List.map_map]
  apply List.map_congr_left
  intro pr _
  exact roundtrip_raw pr _

/-- Claim C3 (amended): for the Papa-parse analyzer variant — the one
whose `parseCSV` maintains `originalData` — parsing, serializing through
`saveToCSV` and re-parsing with the same metadata overlay reproduces the
original `(originalData, tracks)` pair field for field. (The hand-rolled
variant never populates `originalData`, so its serialize output is empty
and the round trip fails; see the counterexample.) -/
theorem papa_variant_roundTrip (meta : JsObj MetaEntry) (rows : List PapaRow)
    (h : rows ≠ []) :
    parseP1 meta rows = Except.ok (p1OriginalData rows, p1Tracks meta rows) ∧
    parseP1 meta (rtRows (p1OriginalData rows) (p1Tracks meta rows))
      = Except.ok (p1OriginalData rows, p1Tracks meta rows) := by
  have hraw := rt_originalData meta rows
  have htr : p1Tracks meta (rtRows (p1OriginalData rows) (p1Tracks meta rows))
      = p1Tracks meta rows := by
    show List.map (mkTrackP1 meta)
        (p1OriginalData (rtRows (p1OriginalData rows) (p1Tracks meta rows)))
      = List.map (mkTrackP1 meta) (p1OriginalData rows)
    rw [hraw]
  have hne2 : (rtRows (p1OriginalData rows) (p1Tracks meta rows)).isEmpty = false := by
    show (List.map papaEcho (List.zipWith mergeRow
        (List.map toRaw rows) (List.map (mkTrackP1 meta) (List.map toRaw rows)))).isEmpty
      = false
    cases rows with
    | nil => exact absurd rfl h
    | cons r rs => simp
  constructor
  · unfold parseP1
    rw [if_neg (by simp [List.isEmpty_iff, h])]
  · unfold parseP1
    rw [if_neg (by simp [hne2]), htr, hraw]

/-- Witness for C3's amended theorem at a one-row input. -/
theorem papa_variant_roundTrip_witness :
    ([papaRowOne] ≠ []) ∧
    (parseP1 [] [papaRowOne]
        = Except.ok (p1OriginalData [papaRowOne], p1Tracks [] [papaRowOne]) ∧
      parseP1 [] (rtRows (p1OriginalData [papaRowOne]) (p1Tracks [] [papaRowOne]))
        = Except.ok (p1OriginalData [papaRowOne], p1Tracks [] [papaRowOne])) :=
  ⟨by decide, papa_variant_roundTrip [] [papaRowOne] (by decide)⟩

/-- Claim C3 counterexample: through the hand-rolled variant the round
trip breaks on any well-formed input — its `parseCSV` succeeds but never
populates `originalData`, so `saveToCSV` merges the empty shadow copy and
serializes zero records (the empty file), whose re-parse fails with the
empty-file error instead of reproducing the parsed records. -/
theorem handRolled_roundTrip_fails :
    (parseCSVrun [] csvOneRow).1 = none ∧
    (parseCSVrun [] csvOneRow).2 ≠ [] ∧
    saveRows ([] : List RawTrack) (parseCSVrun [] csvOneRow).2 = [] ∧
    (parseCSVrun (parseCSVrun [] csvOneRow).2 "").1 = some ParseError.emptyFile ∧
    (parseCSVrun (parseCSVrun [] csvOneRow).2 "").2 = (parseCSVrun [] csvOneRow).2 := by
  decide


/-! ## Stable ranking and JavaScript property enumeration

`Object.entries` hoists canonical array-index keys, in ascending numeric
order, ahead of all other keys; the remaining keys keep insertion order,
which for `countOccurrences` is first-seen order. The sort of
`getTopItems` is stable, so for two groups of equal count whose labels
are not array-index strings, the one first seen ranks first.
-/

open List


lemma keys_jsSet {α : Type} (m : JsObj α) (k : String) (v : α) :
    (jsSet m k v).map Prod.fst =
      if k ∈ m.map Prod.fst then m.map Prod.fst else m.map Prod.fst ++ [k] := by
  induction m with
  | nil => simp [jsSet]
  | cons p t ih =>
    by_cases hp : (p.1 == k) = true
    · have hp' : p.1 = k := by simpa using hp
      have hk : k ∈ (p :: t).map Prod.fst := by
        simp [List.map_cons, hp'.symm]
      rw [if_pos hk]
      simp [jsSet, hp]
    · have hne : p.1 ≠ k := by simpa using hp
      have h2 : ¬ (k = p.1) := fun hh => hne hh.symm
      simp only [jsSet]
      rw [if_neg hp]
      simp only [List.map_cons, ih]
      by_cases hm : k ∈ t.map Prod.fst
      · rw [if_pos hm, if_pos (by simp [hm])]
      · rw [if_neg hm, if_neg (by simp [hm, h2])]
        simp

lemma jsGet_eq_none_iff {α : Type} (m : JsObj α) (k : String) :
    jsGet m k = none ↔ k ∉ m.map Prod.fst := by
  induction m with
  | nil => simp [jsGet]
  | cons p t ih =>
    by_cases hp : (p.1 == k) = true
    · have hp' : p.1 = k := by simpa using hp
      simp [jsGet, hp, hp'.symm]
    · have hne : p.1 ≠ k := by simpa using hp
      have h2 : ¬ (k = p.1) := fun hh => hne hh.symm
      simp [jsGet, hp, ih, h2]

lemma keys_jsInc (m : JsObj Nat) (s : String) :
    (jsInc m s).map Prod.fst =
      if s ∈ m.map Prod.fst then m.map Prod.fst else m.map Prod.fst ++ [s] :=
  keys_jsSet m s _

lemma keys_foldl_extend (l : List String) (m : JsObj Nat) :
    ∃ rest, (l.foldl jsInc m).map Prod.fst = m.map Prod.fst ++ rest := by
  induction l generalizing m with
  | nil => exact ⟨[], by simp⟩
  | cons x xs ih =>
    obtain ⟨r2, hr2⟩ := ih (jsInc m x)
    rw [List.foldl_cons, hr2, keys_jsInc]
    by_cases hx : x ∈ m.map Prod.fst
    · rw [if_pos hx]
      exact ⟨r2, rfl⟩
    · rw [if_neg hx]
      exact ⟨[x] ++ r2, by simp⟩

lemma mem_keys_foldl (l : List String) (m : JsObj Nat) (k : String) (h : k ∈ l) :
    k ∈ (l.foldl jsInc m).map Prod.fst := by
  induction l generalizing m with
  | nil => exact absurd h (by simp)
  | cons x xs ih =>
    rw [List.foldl_cons]
    rcases List.mem_cons.mp h with hk | hk
    · obtain ⟨rest, hrest⟩ := keys_foldl_extend xs (jsInc m x)
      rw [hrest, keys_jsInc]
      subst hk
      by_cases hx : k ∈ m.map Prod.fst
      · rw [if_pos hx]
        exact List.mem_append_left _ hx
      · rw [if_neg hx]
        exact List.mem_append_left _ (List.mem_append_right _ (by simp))
    · exact ih (jsInc m x) hk

lemma keys_foldl_subset (l : List String) (m : JsObj Nat) (k : String)
    (h : k ∈ (l.foldl jsInc m).map Prod.fst) :
    k ∈ m.map Prod.fst ∨ k ∈ l := by
  induction l generalizing m with
  | nil => exact Or.inl (by simpa using h)
  | cons x xs ih =>
    rw [List.foldl_cons] at h
    rcases ih (jsInc m x) h with hk | hk
    · rw [keys_jsInc] at hk
      by_cases hx : x ∈ m.map Prod.fst
      · rw [if_pos hx] at hk
        exact Or.inl hk
      · rw [if_neg hx] at hk
        rcases List.mem_append.mp hk with hk | hk
        · exact Or.inl hk
        · right
          simp only [List.mem_singleton] at hk
          simp [hk]
    · exact Or.inr (List.mem_cons_of_mem _ hk)

lemma jsGet_foldl_jsInc (l : List String) (m : JsObj Nat) (a : String) :
    jsGet (l.foldl jsInc m) a =
      match jsGet m a with
      | some n => some (n + l.count a)
      | none => if a ∈ l then some (l.count a) else none := by
  induction l generalizing m with
  | nil =>
    cases h : jsGet m a <;> simp [h]
  | cons x xs ih =>
    rw [List.foldl_cons, ih (jsInc m x)]
    by_cases hax : a = x
    · subst hax
      have hstep : jsGet (jsInc m a) a = some ((jsGet m a).getD 0 + 1) :=
        jsGet_jsSet_self m a _
      cases h : jsGet m a with
      | none =>
        rw [hstep]
        simp [h, List.count_cons]
        omega
      | some n =>
        rw [hstep]
        simp [h, List.count_cons]
        omega
    · have hstep : jsGet (jsInc m x) a = jsGet m a :=
        jsGet_jsSet_ne m a x _ hax
      rw [hstep]
      have hxa : ¬ (x = a) := fun hh => hax hh.symm
      have hcnt : (x :: xs).count a = xs.count a := by
        simp [List.count_cons, hxa]
      cases h : jsGet m a with
      | none =>
        simp only [h, hcnt]
        by_cases hmem : a ∈ xs
        · simp [hmem, List.mem_cons, hax]
        · simp [hmem, List.mem_cons, hax]
      | some n => simp [h, hcnt]

lemma nodup_keys_foldl (l : List String) (m : JsObj Nat)
    (hm : (m.map Prod.fst).Nodup) :
    ((l.foldl jsInc m).map Prod.fst).Nodup := by
  induction l generalizing m with
  | nil => simpa using hm
  | cons x xs ih =>
    rw [List.foldl_cons]
    apply ih
    rw [keys_jsInc]
    by_cases hx : x ∈ m.map Prod.fst
    · rw [if_pos hx]
      exact hm
    · rw [if_neg hx]
      simp [List.nodup_append, hm, hx]

lemma countOccurrences_keys_order (lu lv : List String) (a b : String)
    (hab : a ≠ b) (hau : a ∉ lu) (hbu : b ∉ lu) (hbv : b ∈ lv) :
    [a, b] <+ (countOccurrences (lu ++ a :: lv)).map Prod.fst := by
  unfold countOccurrences
  rw [List.foldl_append, List.foldl_cons]
  set A0 := lu.foldl jsInc [] with hA0
  have ha0 : a ∉ A0.map Prod.fst := by
    intro hmem
    rcases keys_foldl_subset lu [] a hmem with h | h
    · simp at h
    · exact hau h
  have hb0 : b ∉ A0.map Prod.fst := by
    intro hmem
    rcases keys_foldl_subset lu [] b hmem with h | h
    · simp at h
    · exact hbu h
  have hk1 : (jsInc A0 a).map Prod.fst = A0.map Prod.fst ++ [a] := by
    rw [keys_jsInc, if_neg ha0]
  obtain ⟨rest, hrest⟩ := keys_foldl_extend lv (jsInc A0 a)
  have hbfin : b ∈ (lv.foldl jsInc (jsInc A0 a)).map Prod.fst :=
    mem_keys_foldl lv (jsInc A0 a) b hbv
  rw [hrest, hk1] at hbfin
  have hbrest : b ∈ rest := by
    rcases List.mem_append.mp hbfin with h | h
    · rcases List.mem_append.mp h with h | h
      · exact absurd h hb0
      · simp at h
        exact absurd h (Ne.symm hab)
    · exact h
  rw [hrest, hk1, List.append_assoc]
  have hsub : [a] ++ [b] <+ [a] ++ rest :=
    List.Sublist.append (List.Sublist.refl [a]) (List.singleton_sublist.mpr hbrest)
  exact hsub.trans (List.sublist_append_right _ _)

lemma jsGet_mem {α : Type} (o : JsObj α) (k : String) (v : α)
    (h : jsGet o k = some v) : (k, v) ∈ o := by
  induction o with
  | nil => simp [jsGet] at h
  | cons p t ih =>
    by_cases hp : (p.1 == k) = true
    · have hp' : p.1 = k := by simpa using hp
      rw [jsGet, if_pos hp] at h
      injection h with h
      exact List.mem_cons.mpr (Or.inl (by rw [← hp', ← h]))
    · rw [jsGet, if_neg hp] at h
      exact List.mem_cons_of_mem _ (ih h)

lemma pairs_sublist_of_keys (o : JsObj Nat) (a b : String) (va vb : Nat)
    (hnd : (o.map Prod.fst).Nodup)
    (hk : [a, b] <+ o.map Prod.fst)
    (ha : jsGet o a = some va) (hb : jsGet o b = some vb) :
    [(a, va), (b, vb)] <+ o := by
  induction o with
  | nil => simp at hk
  | cons p t ih =>
    obtain ⟨k, w⟩ := p
    simp only [List.map_cons] at hk hnd
    rw [List.nodup_cons] at hnd
    obtain ⟨hknt, hndt⟩ := hnd
    cases hk with
    | cons x hk' =>
      have hamem : a ∈ t.map Prod.fst := hk'.subset (by simp)
      have hbmem : b ∈ t.map Prod.fst := hk'.subset (by simp)
      have hka : ¬ (k == a) = true := by
        simp only [beq_iff_eq]
        intro hh
        rw [hh] at hknt
        exact hknt hamem
      have hkb : ¬ (k == b) = true := by
        simp only [beq_iff_eq]
        intro hh
        rw [hh] at hknt
        exact hknt hbmem
      simp only [jsGet] at ha hb
      rw [if_neg hka] at ha
      rw [if_neg hkb] at hb
      exact List.Sublist.cons _ (ih hndt hk' ha hb)
    | cons₂ x hk' =>
      have hbmem : b ∈ t.map Prod.fst := hk'.subset (by simp)
      have hab : ¬ (a == b) = true := by
        simp only [beq_iff_eq]
        intro hh
        rw [hh] at hknt
        exact hknt hbmem
      simp only [jsGet] at ha hb
      rw [if_pos (by simp)] at ha
      rw [if_neg hab] at hb
      injection ha with hva
      rw [← hva]
      exact List.Sublist.cons₂ _ (List.singleton_sublist.mpr (jsGet_mem t b vb hb))

lemma sublist_jsEntries {α : Type} (o : JsObj α) (p q : String × α)
    (hp : isArrayIndex p.1 = false) (hq : isArrayIndex q.1 = false)
    (h : [p, q] <+ o) : [p, q] <+ jsEntries o := by
  have h2 : [p, q] <+ o.filter (fun r => !isArrayIndex r.1) := by
    have h3 := List.Sublist.filter (fun r => !isArrayIndex r.1) h
    have h4 : List.filter (fun r => !isArrayIndex r.1) [p, q] = [p, q] := by
      simp [List.filter_cons, hp, hq]
    rw [h4] at h3
    exact h3
  exact h2.trans (List.sublist_append_right _ _)

-- stable insertion sort lemmas
lemma mem_insertDesc_self (x : TopItem) (l : List TopItem) :
    x ∈ insertDesc x l := by
  induction l with
  | nil => simp [insertDesc]
  | cons y ys ih =>
    rw [insertDesc]
    by_cases h : y.count < x.count
    · simp [h]
    · simp only [if_neg h]
      exact List.mem_cons_of_mem _ ih

lemma mem_insertDesc_of_mem (z x : TopItem) (l : List TopItem) (h : z ∈ l) :
    z ∈ insertDesc x l := by
  induction l with
  | nil => simp at h
  | cons y ys ih =>
    rw [insertDesc]
    by_cases hc : y.count < x.count
    · simp only [if_pos hc]
      exact List.mem_cons_of_mem _ h
    · simp only [if_neg hc]
      rcases List.mem_cons.mp h with hz | hz
      · rw [hz]; exact List.mem_cons_self _ _
      · exact List.mem_cons_of_mem _ (ih hz)

lemma mem_of_mem_insertDesc (z x : TopItem) (l : List TopItem)
    (h : z ∈ insertDesc x l) : z = x ∨ z ∈ l := by
  induction l with
  | nil => simpa [insertDesc] using h
  | cons y ys ih =>
    rw [insertDesc] at h
    by_cases hc : y.count < x.count
    · rw [if_pos hc] at h
      rcases List.mem_cons.mp h with hz | hz
      · exact Or.inl hz
      · exact Or.inr hz
    · rw [if_neg hc] at h
      rcases List.mem_cons.mp h with hz | hz
      · exact Or.inr (by rw [hz]; exact List.mem_cons_self _ _)
      · rcases ih hz with hz2 | hz2
        · exact Or.inl hz2
        · exact Or.inr (List.mem_cons_of_mem _ hz2)

lemma sublist_insertDesc (x : TopItem) (l : List TopItem) :
    l <+ insertDesc x l := by
  induction l with
  | nil => simp [insertDesc]
  | cons y ys ih =>
    rw [insertDesc]
    by_cases hc : y.count < x.count
    · rw [if_pos hc]
      exact List.Sublist.cons _ (List.Sublist.refl _)
    · rw [if_neg hc]
      exact List.Sublist.cons₂ _ ih

lemma pairwise_insertDesc (x : TopItem) (l : List TopItem)
    (hl : l.Pairwise (fun a b => b.count ≤ a.count)) :
    (insertDesc x l).Pairwise (fun a b => b.count ≤ a.count) := by
  induction l with
  | nil => simp [insertDesc]
  | cons y ys ih =>
    rw [List.pairwise_cons] at hl
    obtain ⟨hy, hys⟩ := hl
    rw [insertDesc]
    by_cases hc : y.count < x.count
    · rw [if_pos hc]
      rw [List.pairwise_cons]
      constructor
      · intro z hz
        rcases List.mem_cons.mp hz with hz | hz
        · rw [hz]; exact Nat.le_of_lt hc
        · exact Nat.le_trans (hy z hz) (Nat.le_of_lt hc)
      · rw [List.pairwise_cons]
        exact ⟨hy, hys⟩
    · rw [if_neg hc]
      rw [List.pairwise_cons]
      constructor
      · intro z hz
        rcases mem_of_mem_insertDesc z x ys hz with hz2 | hz2
        · rw [hz2]; exact Nat.le_of_not_lt hc
        · exact hy z hz2
      · exact ih hys

lemma insertDesc_after_mem (acc : List TopItem) (x y : TopItem)
    (hs : acc.Pairwise (fun a b => b.count ≤ a.count))
    (hx : x ∈ acc) (hxy : y.count ≤ x.count) :
    [x, y] <+ insertDesc y acc := by
  induction acc with
  | nil => simp at hx
  | cons h t ih =>
    rw [List.pairwise_cons] at hs
    obtain ⟨hh, ht⟩ := hs
    rw [insertDesc]
    by_cases hc : h.count < y.count
    · exfalso
      rcases List.mem_cons.mp hx with hz | hz
      · rw [← hz] at hc
        omega
      · have := hh x hz
        omega
    · rw [if_neg hc]
      rcases List.mem_cons.mp hx with hz | hz
      · rw [← hz]
        exact List.Sublist.cons₂ _
          (List.singleton_sublist.mpr (mem_insertDesc_self y t))
      · exact List.Sublist.cons _ (ih ht hz)

lemma sortDesc_stable_aux (l acc : List TopItem) (x y : TopItem)
    (hxy : y.count ≤ x.count)
    (hs : acc.Pairwise (fun a b => b.count ≤ a.count))
    (h : (x ∈ acc ∧ y ∈ l) ∨ [x, y] <+ acc ∨ [x, y] <+ l) :
    [x, y] <+ l.foldl (fun acc x => insertDesc x acc) acc := by
  induction l generalizing acc with
  | nil =>
    rcases h with ⟨_, hy⟩ | h | h
    · simp at hy
    · simpa using h
    · simp at h
  | cons z l ih =>
    rw [List.foldl_cons]
    have hs2 := pairwise_insertDesc z acc hs
    rcases h with ⟨hxacc, hy⟩ | h | h
    · rcases List.mem_cons.mp hy with hyz | hyl
      · subst hyz
        exact ih (insertDesc y acc) hs2
          (Or.inr (Or.inl (insertDesc_after_mem acc x y hs hxacc hxy)))
      · exact ih (insertDesc z acc) hs2
          (Or.inl ⟨mem_insertDesc_of_mem x z acc hxacc, hyl⟩)
    · exact ih (insertDesc z acc) hs2
        (Or.inr (Or.inl (h.trans (sublist_insertDesc z acc))))
    · cases h with
      | cons w h2 =>
        exact ih (insertDesc z acc) hs2 (Or.inr (Or.inr h2))
      | cons₂ w h2 =>
        -- z = x, [y] <+ l
        exact ih (insertDesc x acc) (pairwise_insertDesc x acc hs)
          (Or.inl ⟨mem_insertDesc_self x acc, List.singleton_sublist.mp h2⟩)

lemma artistList_decomp (u : List Track) (r : Track) (v : List Track)
    (hra : jsTrim r.artist ≠ "") :
    artistList (u ++ r :: v) = artistList u ++ r.artist :: artistList v := by
  have hpa : ((fun t : Track => jsTrim t.artist != "") r) = true := by
    show (jsTrim r.artist != "") = true
    exact bne_iff_ne.mpr hra
  unfold artistList
  rw [List.filter_append, List.map_append, List.filter_cons, if_pos hpa,
    List.map_cons]

lemma mem_artistList (u : List Track) (x : String) (h : x ∈ artistList u) :
    ∃ t ∈ u, t.artist = x := by
  unfold artistList at h
  obtain ⟨t, ht, hx⟩ := List.mem_map.mp h
  exact ⟨t, (List.mem_filter.mp ht).1, hx⟩

lemma artistList_mem (v : List Track) (t : Track) (ht : t ∈ v)
    (htrim : jsTrim t.artist ≠ "") : t.artist ∈ artistList v := by
  unfold artistList
  exact List.mem_map.mpr ⟨t, List.mem_filter.mpr ⟨ht, bne_iff_ne.mpr htrim⟩, rfl⟩

/-- Claim C4 (amended): for two equal-count artist groups whose labels
are not canonical array-index strings, the group whose first record
appears earlier in input order ranks higher in `topArtists`, regardless
of the labels' alphabetical form. (For integer-like labels the claim
fails: `Object.entries` enumerates them numerically ascending ahead of
everything else — see the counterexample.) -/
theorem topArtists_stable_tie_ranking
    (ts : List Track) (a b : String)
    (hab : a ≠ b)
    (hta : jsTrim a ≠ "") (htb : jsTrim b ≠ "")
    (hia : isArrayIndex a = false) (hib : isArrayIndex b = false)
    (hcount : (artistList ts).count a = (artistList ts).count b)
    (horder : ∃ u r v, ts = u ++ r :: v ∧ r.artist = a ∧
        (∀ x ∈ u, x.artist ≠ a) ∧ (∀ x ∈ u, x.artist ≠ b) ∧
        (∃ x ∈ v, x.artist = b)) :
    [a, b] <+ (analyze ts).topArtists.map TopItem.name := by
  obtain ⟨u, r, v, hts, hra, hua, hub, xb, hxbv, hxbb⟩ := horder
  have hdecomp : artistList ts = artistList u ++ a :: artistList v := by
    rw [hts, artistList_decomp u r v (by rw [hra]; exact hta), hra]
  have hau : a ∉ artistList u := by
    intro hmem
    obtain ⟨t, htu, hta2⟩ := mem_artistList u a hmem
    exact hua t htu hta2
  have hbu : b ∉ artistList u := by
    intro hmem
    obtain ⟨t, htu, htb2⟩ := mem_artistList u b hmem
    exact hub t htu htb2
  have hbv : b ∈ artistList v := by
    have := artistList_mem v xb hxbv (by rw [hxbb]; exact htb)
    rw [hxbb] at this
    exact this
  -- keys of the counts object hold a before b
  have hkeys : [a, b] <+ (countOccurrences (artistList ts)).map Prod.fst := by
    rw [hdecomp]
    exact countOccurrences_keys_order (artistList u) (artistList v) a b hab hau hbu hbv
  -- values
  have hamem : a ∈ artistList ts := by
    rw [hdecomp]
    exact List.mem_append_right _ (List.mem_cons_self _ _)
  have hbmem : b ∈ artistList ts := by
    rw [hdecomp]
    exact List.mem_append_right _ (List.mem_cons_of_mem _ hbv)
  have hga : jsGet (countOccurrences (artistList ts)) a
      = some ((artistList ts).count a) := by
    show jsGet ((artistList ts).foldl jsInc []) a = _
    rw [jsGet_foldl_jsInc]
    simp [jsGet, hamem]
  have hgb : jsGet (countOccurrences (artistList ts)) b
      = some ((artistList ts).count b) := by
    show jsGet ((artistList ts).foldl jsInc []) b = _
    rw [jsGet_foldl_jsInc]
    simp [jsGet, hbmem]
  have hnd : ((countOccurrences (artistList ts)).map Prod.fst).Nodup := by
    show ((( artistList ts).foldl jsInc []).map Prod.fst).Nodup
    exact nodup_keys_foldl _ _ (by simp)
  have hpairs := pairs_sublist_of_keys (countOccurrences (artistList ts)) a b
    ((artistList ts).count a) ((artistList ts).count b) hnd hkeys hga hgb
  -- through jsEntries
  have hentries := sublist_jsEntries (countOccurrences (artistList ts))
    (a, (artistList ts).count a) (b, (artistList ts).count b) hia hib hpairs
  -- through the empty-name filter
  have hfa : ((a, (artistList ts).count a).1 != ""
      && jsTrim (a, (artistList ts).count a).1 != "") = true := by
    have ha' : a ≠ "" := fun hh => hta (by rw [hh]; rfl)
    simp [bne_iff_ne, ha', hta]
  have hfb : ((b, (artistList ts).count b).1 != ""
      && jsTrim (b, (artistList ts).count b).1 != "") = true := by
    have hb' : b ≠ "" := fun hh => htb (by rw [hh]; rfl)
    simp [bne_iff_ne, hb', htb]
  have hfilter : [(a, (artistList ts).count a), (b, (artistList ts).count b)]
      <+ (jsEntries (countOccurrences (artistList ts))).filter
        (fun p => p.1 != "" && jsTrim p.1 != "") := by
    have h3 := List.Sublist.filter (fun p : String × Nat => p.1 != "" && jsTrim p.1 != "")
      hentries
    have h4 : List.filter (fun p : String × Nat => p.1 != "" && jsTrim p.1 != "")
        [(a, (artistList ts).count a), (b, (artistList ts).count b)]
        = [(a, (artistList ts).count a), (b, (artistList ts).count b)] := by
      rw [List.filter_cons, if_pos hfa, List.filter_cons, if_pos hfb, List.filter_nil]
    rw [h4] at h3
    exact h3
  -- map to TopItems
  have hmapped := List.Sublist.map
    (fun p : String × Nat => ({ name := p.1, count := p.2 } : TopItem)) hfilter
  -- stable sort
  have hsorted : [({ name := a, count := (artistList ts).count a } : TopItem),
      ({ name := b, count := (artistList ts).count b } : TopItem)]
      <+ getTopItems (countOccurrences (artistList ts)) := by
    apply sortDesc_stable_aux _ [] _ _
      (by simp [hcount])
      (by simp)
    right; right
    simpa using hmapped
  have hnames := List.Sublist.map TopItem.name hsorted
  simpa using hnames


/-- Witness for C4's amended theorem: artists `"B"` (first) and `"A"`
(second) tie at one play each and `"B"` ranks first despite alphabetical
order. -/
theorem topArtists_stable_tie_ranking_witness :
    (("B" : String) ≠ "A" ∧ jsTrim "B" ≠ "" ∧ jsTrim "A" ≠ "" ∧
      isArrayIndex "B" = false ∧ isArrayIndex "A" = false ∧
      (artistList letterArtists).count "B" = (artistList letterArtists).count "A" ∧
      (∃ u r v, letterArtists = u ++ r :: v ∧ r.artist = "B" ∧
        (∀ x ∈ u, x.artist ≠ "B") ∧ (∀ x ∈ u, x.artist ≠ "A") ∧
        (∃ x ∈ v, x.artist = "A"))) ∧
    List.Sublist ["B", "A"] ((analyze letterArtists).topArtists.map TopItem.name) := by
  constructor
  · refine ⟨by decide, by decide, by decide, by decide, by decide, by decide, ?_⟩
    exact ⟨[], { artist := "B", album := "X", track := "S", count := 1 },
      [{ artist := "A", album := "X", track := "T", count := 1 }],
      rfl, rfl, by simp, by simp,
      ⟨{ artist := "A", album := "X", track := "T", count := 1 }, by simp, rfl⟩⟩
  · exact topArtists_stable_tie_ranking letterArtists "B" "A"
      (by decide) (by decide) (by decide) (by decide) (by decide) (by decide)
      ⟨[], { artist := "B", album := "X", track := "S", count := 1 },
        [{ artist := "A", album := "X", track := "T", count := 1 }],
        rfl, rfl, by simp, by simp,
        ⟨{ artist := "A", album := "X", track := "T", count := 1 }, by simp, rfl⟩⟩

/-- Claim C4 counterexample: with the two equal-count artists `"10"`
(first seen) and `"2"` (second), `analyze` ranks `"2"` first: integer-like
labels are enumerated numerically ascending by JavaScript object
semantics, overturning first-seen order. -/
theorem topArtists_numeric_labels_reordered :
    numericArtists.map (fun t => t.artist) = ["10", "2"] ∧
    (analyze numericArtists).topArtists.map (fun i => (i.name, i.count))
        = [("2", 1), ("10", 1)] ∧
    (analyze numericArtists).topArtists.map TopItem.name ≠ ["10", "2"] := by
  decide
